import Mathlib

/-!
Verification development for the `sma16vm` emulator (`src/lib.rs`).

The Rust core is a 16-bit machine: 4096-word memory (addresses masked to
12 bits), an accumulator, a growable stack (`Vec<u16>`, top at the end),
a program counter, a 4-bit-opcode instruction set, two memory-mapped
output ports and a fault protocol.

Machine words are embedded as `Nat` with explicit reductions where the
Rust `u16` type wraps.  Bit masks are written in their arithmetic form,
which agrees with the bitwise form at every natural number:
`w & 0x0FFF = w % 4096`, `(w >> 12) & 0xF = w / 4096 % 16`,
`w & 0xF000 = w / 4096 % 16 * 4096`, and `x | y = x + y` when the set
bits of `x` and `y` are disjoint (the only use of `|` in the source
merges a value whose low 12 bits are zero with a value below 4096).
Arithmetic on `u16` is modelled with the unchecked (release-profile)
semantics the specification describes: additions wrap modulo 2^16 and a
shift amount is taken modulo the bit width.  Output bytes written to
stdout by `putc` are modelled as a list of emitted bytes carried in the
machine state, appended in emission order.
-/

namespace Sma16VM

/-- `Word::data` (src/lib.rs line 84): `self & 0x0FFF`, the low 12 bits. -/
def data (w : Nat) : Nat := w % 4096

/-- `Word::inst` (src/lib.rs line 79): `(self >> 12) & 0x000F`, the opcode nibble. -/
def inst (w : Nat) : Nat := w / 4096 % 16

/-- Inner `convert` of `small_to_chars` (src/lib.rs lines 15-23): maps a
6-bit code to its output byte, or to nothing for code 63 (and any larger
value, unreachable from the masked call sites). -/
def convert (c : Nat) : Option Nat :=
  if c ≤ 25 then some (65 + c)
  else if c ≤ 51 then some (97 + (c - 26))
  else if c ≤ 61 then some (48 + (c - 52))
  else if c = 62 then some 32
  else none

/-- `small_to_chars` (src/lib.rs lines 14-28): the two 6-bit codes of a
word, converted; the element built from the low 6 bits (`former`) comes
first, the one from bits 6-11 (`latter`) second.  `small & 0x3F` is
`small % 64` and `(small >> 6) & 0x3F` is `small / 64 % 64`. -/
def small_to_chars (small : Nat) : List (Option Nat) :=
  [convert (small % 64), convert (small / 64 % 64)]

/-- The instruction set (src/lib.rs lines 30-46). -/
inductive Instruction where
  | Halt
  | Jump
  | JumpZ
  | Load
  | Store
  | LShft
  | RShft
  | Xor
  | And
  | SFull
  | Add
  | Pop
  | Push
  | NoOp
  | Unknown (n : Nat)
deriving DecidableEq

/-- `impl From<u16> for Instruction` (src/lib.rs lines 48-69). -/
def Instruction.ofNat (n : Nat) : Instruction :=
  match n with
  | 0x0 => .Halt
  | 0x2 => .Jump
  | 0x3 => .JumpZ
  | 0x4 => .Load
  | 0x5 => .Store
  | 0x6 => .LShft
  | 0x7 => .RShft
  | 0x8 => .Xor
  | 0x9 => .And
  | 0xA => .SFull
  | 0xB => .Add
  | 0xD => .Pop
  | 0xE => .Push
  | 0xF => .NoOp
  | n   => .Unknown n

/-- `Memory` (src/lib.rs line 95): 4096 16-bit words, here a function from
(masked) index to stored word. -/
def Memory : Type := Nat → Nat

/-- `impl Index<u16> for Memory` (src/lib.rs lines 97-103): the index is
masked with `& 0xFFF` before the array access. -/
def Memory.read (m : Memory) (address : Nat) : Nat := m (address % 4096)

/-- `impl IndexMut<u16> for Memory` (src/lib.rs lines 105-109), used as the
target of an assignment: the index is masked with `& 0xFFF`. -/
def Memory.write (m : Memory) (address v : Nat) : Memory :=
  fun x => if x = address % 4096 then v else m x

/-- Bounds-checked counterpart of `Memory.read`: a Rust array access
panics when the index is out of range, so the checked model returns
`none` there.  Used to state that the mask keeps every access in range. -/
def Memory.readChk (m : Memory) (address : Nat) : Option Nat :=
  if address % 4096 < 4096 then some (m (address % 4096)) else none

/-- Bounds-checked counterpart of `Memory.write`. -/
def Memory.writeChk (m : Memory) (address v : Nat) : Option Memory :=
  if address % 4096 < 4096 then some (m.write address v) else none

/-- The machine state `Sma16` (src/lib.rs lines 117-126), extended with
the list of bytes emitted so far by `putc` (oldest first): the Rust code
writes them to stdout as a side effect; here they are part of the state. -/
structure Sma16 where
  memory : Memory
  stack : List Nat
  program_counter : Nat
  instruction_register : Nat
  accumulator : Nat
  flag_halt : Bool
  flag_zero : Bool
  output : List Nat

/-- `Sma16::INTERRUPT_REASON_REGISTER` = 0x008. -/
def INTERRUPT_REASON_REGISTER : Nat := 0x008
/-- `Sma16::INTERRUPT_RETURN_REGISTER` = 0x009. -/
def INTERRUPT_RETURN_REGISTER : Nat := 0x009
/-- `Sma16::STACK_SIZE_REGISTER` = 0x00D. -/
def STACK_SIZE_REGISTER : Nat := 0x00D
/-- `Sma16::RESET_VECTOR` = 0x000. -/
def RESET_VECTOR : Nat := 0x000
/-- `Sma16::FAULT_VECTOR` = 0x001. -/
def FAULT_VECTOR : Nat := 0x001
/-- `Sma16::ASCII_OUT` = 0x00A. -/
def ASCII_OUT : Nat := 0x00A
/-- `Sma16::SMALL_OUT` = 0x00B. -/
def SMALL_OUT : Nat := 0x00B

/-- `Sma16::with_memory` (src/lib.rs lines 142-154): fresh registers and
stack, then the stack-size register is set to `0xFFFF` by a direct memory
index (no port side effect applies; the address is not a port anyway). -/
def with_memory (mem : Memory) : Sma16 :=
  { memory := mem.write STACK_SIZE_REGISTER 0xFFFF
    stack := []
    program_counter := RESET_VECTOR
    instruction_register := 0
    accumulator := 0
    flag_halt := false
    flag_zero := false
    output := [] }

/-- `Sma16::with_blank_memory` (src/lib.rs lines 138-140). -/
def with_blank_memory : Sma16 := with_memory (fun _ => 0)

/-- The loop body of `Sma16::load_memory`: `self.memory[start + (i as u16)]
= *word` — a direct memory index (not `write_memory`), with `u16`
addition of `start` and the truncated loop index. -/
def load_words (m : Memory) (start : Nat) (i : Nat) : List Nat → Memory
  | [] => m
  | w :: ws => load_words (m.write ((start + i % 65536) % 65536) w) start (i + 1) ws

/-- `Sma16::load_memory` (src/lib.rs lines 156-160): bulk copy into
memory; only the memory field changes. -/
def load_memory (s : Sma16) (start : Nat) (ws : List Nat) : Sma16 :=
  { s with memory := load_words s.memory start 0 ws }

/-- `Sma16::fault` (src/lib.rs lines 166-170): direct memory writes of the
return address (`pc + 1`, a `u16` addition) and the reason, then the
program counter is redirected to the fault vector. -/
def fault (s : Sma16) (reason : Nat) : Sma16 :=
  { s with
      memory := ((s.memory.write INTERRUPT_RETURN_REGISTER
        ((s.program_counter + 1) % 65536)).write INTERRUPT_REASON_REGISTER reason)
      program_counter := FAULT_VECTOR }

/-- `Sma16::read_memory` (src/lib.rs lines 172-174): `self.memory[address.data()]`. -/
def read_memory (s : Sma16) (address : Nat) : Nat :=
  s.memory.read (data address)

/-- `Sma16::write_memory` (src/lib.rs lines 176-187): store at the masked
address, then match on the UNMASKED address: exactly `0x00A` emits the
value's low byte, exactly `0x00B` emits the characters of the value's
data field (each `Some` of `small_to_chars`, in order). -/
def write_memory (s : Sma16) (address v : Nat) : Sma16 :=
  let s1 := { s with memory := s.memory.write (data address) v }
  if address = ASCII_OUT then
    { s1 with output := s1.output ++ [v % 256] }
  else if address = SMALL_OUT then
    { s1 with output := s1.output ++ (small_to_chars (data v)).filterMap id }
  else s1

/-- `Sma16::write_memory_data` (src/lib.rs lines 189-191):
`write_memory(addr, read_memory(addr) & 0xF000 | value.data())`.  The
merge keeps bits 12-15 of the existing word (`x & 0xF000 =
x / 4096 % 16 * 4096`) and, those bits being disjoint from the value's
low 12 bits, the bitwise or is the sum. -/
def write_memory_data (s : Sma16) (address v : Nat) : Sma16 :=
  write_memory s address (read_memory s address / 4096 % 16 * 4096 + data v)

/-- The `pc` auto-increment at the end of `Sma16::step` (src/lib.rs lines
269-271): a `u16` increment, wrapping modulo 2^16. -/
def inc_pc (s : Sma16) : Sma16 :=
  { s with program_counter := (s.program_counter + 1) % 65536 }

/-- `u16` left shift with unchecked semantics: the amount is taken modulo
the bit width and the result is truncated to 16 bits. -/
def u16_shl (x n : Nat) : Nat := (x <<< (n % 16)) % 65536

/-- `u16` right shift with unchecked semantics: the amount is taken
modulo the bit width. -/
def u16_shr (x n : Nat) : Nat := x >>> (n % 16)

/-- `Sma16::step` (src/lib.rs lines 193-272): fetch into the instruction
register, decode its opcode nibble, execute, and increment `pc` unless
the operation suppressed it.  `Word::set_data` (line 89) replaces the
whole register, so the data-path results of the shift, `Xor`, `And` and
`Add` arms are stored unmasked. -/
def step (s : Sma16) : Sma16 :=
  let s := { s with instruction_register := read_memory s s.program_counter }
  let ir := s.instruction_register
  match Instruction.ofNat (inst ir) with
  | .Halt  => inc_pc { s with flag_halt := true }
  | .Jump  => { s with program_counter := data ir }
  | .JumpZ =>
      if s.flag_zero then { s with program_counter := data ir } else inc_pc s
  | .Load  => inc_pc { s with accumulator := read_memory s (data ir) }
  | .Store => inc_pc (write_memory_data s (data ir) (data s.accumulator))
  | .LShft =>
      let amount := data ir >>> 1
      if data ir % 2 = 1 then
        inc_pc { s with accumulator := u16_shl (data s.accumulator) amount }
      else
        inc_pc { s with accumulator := u16_shl s.accumulator amount }
  | .RShft =>
      let amount := data ir >>> 1
      if data ir % 2 = 1 then
        inc_pc { s with accumulator := u16_shr (data s.accumulator) amount }
      else
        inc_pc { s with accumulator := u16_shr s.accumulator amount }
  | .Xor   => inc_pc { s with accumulator := (data s.accumulator) ^^^ (data ir) }
  | .And   => inc_pc { s with accumulator := (data s.accumulator) &&& (data ir) }
  | .SFull => inc_pc (write_memory s (data ir) s.accumulator)
  | .Add   =>
      let acc := (data s.accumulator + data ir) % 65536
      inc_pc { s with accumulator := acc, flag_zero := data acc == 0 }
  | .Pop   =>
      inc_pc { s with accumulator := (s.stack.getLast?).getD 0
                      stack := s.stack.dropLast }
  | .Push  => inc_pc { s with stack := s.stack ++ [s.accumulator] }
  | .NoOp  => inc_pc s
  | .Unknown n => fault s (0x0FF0 ||| inst n)

/-- `n` applications of `step`. -/
def stepN (s : Sma16) : Nat → Sma16
  | 0 => s
  | n + 1 => step (stepN s n)

/-- The first thing `Sma16::run` (src/lib.rs lines 274-279) does: clear
the halt flag. -/
def run_start (s : Sma16) : Sma16 := { s with flag_halt := false }

/-! Bounds-checked mirror of `step`, in which every memory (array) access
goes through the checked index; `none` stands for a host-level abort.
`step_chk = some ∘ step` states that the masking discharges every bounds
check, i.e. one instruction never fails on the host. -/

/-- `Sma16::read_memory` with the checked array access. -/
def read_memory_chk (s : Sma16) (address : Nat) : Option Nat :=
  s.memory.readChk (data address)

/-- `Sma16::write_memory` with the checked array access. -/
def write_memory_chk (s : Sma16) (address v : Nat) : Option Sma16 :=
  (s.memory.writeChk (data address) v).map fun m =>
    let s1 := { s with memory := m }
    if address = ASCII_OUT then
      { s1 with output := s1.output ++ [v % 256] }
    else if address = SMALL_OUT then
      { s1 with output := s1.output ++ (small_to_chars (data v)).filterMap id }
    else s1

/-- `Sma16::write_memory_data` with the checked accesses. -/
def write_memory_data_chk (s : Sma16) (address v : Nat) : Option Sma16 :=
  (read_memory_chk s address).bind fun old =>
    write_memory_chk s address (old / 4096 % 16 * 4096 + data v)

/-- `Sma16::fault` with the checked accesses. -/
def fault_chk (s : Sma16) (reason : Nat) : Option Sma16 :=
  (s.memory.writeChk INTERRUPT_RETURN_REGISTER ((s.program_counter + 1) % 65536)).bind
    fun m1 => (m1.writeChk INTERRUPT_REASON_REGISTER reason).map fun m2 =>
      { s with memory := m2, program_counter := FAULT_VECTOR }

/-- `Sma16::step` with every memory access checked.  The shift arms carry
no check: with the unchecked (release-profile) semantics modelled here a
`u16` shift is total, its amount taken modulo the bit width. -/
def step_chk (s : Sma16) : Option Sma16 :=
  (read_memory_chk s s.program_counter).bind fun w =>
  let s := { s with instruction_register := w }
  let ir := s.instruction_register
  match Instruction.ofNat (inst ir) with
  | .Halt  => some (inc_pc { s with flag_halt := true })
  | .Jump  => some { s with program_counter := data ir }
  | .JumpZ =>
      some (if s.flag_zero then { s with program_counter := data ir } else inc_pc s)
  | .Load  => (read_memory_chk s (data ir)).map fun v =>
      inc_pc { s with accumulator := v }
  | .Store => (write_memory_data_chk s (data ir) (data s.accumulator)).map inc_pc
  | .LShft =>
      let amount := data ir >>> 1
      some (if data ir % 2 = 1 then
        inc_pc { s with accumulator := u16_shl (data s.accumulator) amount }
      else
        inc_pc { s with accumulator := u16_shl s.accumulator amount })
  | .RShft =>
      let amount := data ir >>> 1
      some (if data ir % 2 = 1 then
        inc_pc { s with accumulator := u16_shr (data s.accumulator) amount }
      else
        inc_pc { s with accumulator := u16_shr s.accumulator amount })
  | .Xor   => some (inc_pc { s with accumulator := (data s.accumulator) ^^^ (data ir) })
  | .And   => some (inc_pc { s with accumulator := (data s.accumulator) &&& (data ir) })
  | .SFull => (write_memory_chk s (data ir) s.accumulator).map inc_pc
  | .Add   =>
      let acc := (data s.accumulator + data ir) % 65536
      some (inc_pc { s with accumulator := acc, flag_zero := data acc == 0 })
  | .Pop   =>
      some (inc_pc { s with accumulator := (s.stack.getLast?).getD 0
                            stack := s.stack.dropLast })
  | .Push  => some (inc_pc { s with stack := s.stack ++ [s.accumulator] })
  | .NoOp  => some (inc_pc s)
  | .Unknown n => fault_chk s (0x0FF0 ||| inst n)

/-- State whose first instruction is `LShft` with operand `0x021`: shift
amount `0x021 >> 1 = 16`, data mode. -/
def c4_shift_state : Sma16 :=
  { load_memory with_blank_memory 0 [0x6021] with accumulator := 0x1234 }

/-- State with the program counter at the top of the 16-bit range. -/
def c4_pc_state : Sma16 := { with_blank_memory with program_counter := 65535 }

/-- Program used to drive the program counter past 4095: an unmapped
opcode at address 0, `Jump 4095` at address 1, `NoOp` at address 4095. -/
def c3_state : Sma16 :=
  load_memory (load_memory with_blank_memory 0 [0x1000, 0x2FFF]) 4095 [0xF000]

/-- State whose first instruction is `Add 5`. -/
def c6_state : Sma16 := load_memory with_blank_memory 0 [0xB005]

/-- State whose first instruction is `Store 2`, with target word `0xE123`. -/
def c7_store_state : Sma16 := load_memory with_blank_memory 0 [0x5002, 0x0000, 0xE123]

/-- State whose first instruction is `StoreFull 2`, with target word `0xE123`. -/
def c7_sfull_state : Sma16 := load_memory with_blank_memory 0 [0xA002, 0x0000, 0xE123]

/-- Program exercising the stack: `Load 0x00E`, `Push`, `Load 0x00F`,
`Push`, `Pop`, `Pop`, with the two pushed values `v1` and `v2` stored at
addresses `0x00E` and `0x00F`. -/
def c9_state (v1 v2 : Nat) : Sma16 :=
  load_memory (load_memory with_blank_memory 0
    [0x400E, 0xE000, 0x400F, 0xE000, 0xD000, 0xD000]) 14 [v1, v2]

/-- `Sma16::run` as a relation: after clearing the halt flag the step loop
runs while the flag is clear, so `run` started at `s` terminates in `t`
exactly when some number of steps reaches a halted state for the first
time, and that state is `t`. -/
def RunsTo (s t : Sma16) : Prop :=
  ∃ n, (∀ k < n, (stepN (run_start s) k).flag_halt = false) ∧
    stepN (run_start s) n = t ∧ t.flag_halt = true

/-- Sanity check: the arithmetic form of `data` agrees with the bit mask. -/
theorem data_eq_and (w : Nat) : data w = w &&& 0x0FFF := by
  have h := Nat.and_pow_two_sub_one_eq_mod w 12
  norm_num at h
  simpa [data] using h.symm

/-- Sanity check: the arithmetic form of `inst` agrees with shift-and-mask. -/
theorem inst_eq_shift_and (w : Nat) : inst w = (w >>> 12) &&& 0x000F := by
  have h := Nat.and_pow_two_sub_one_eq_mod (w >>> 12) 4
  norm_num at h
  simpa [inst, Nat.shiftRight_eq_div_pow] using h.symm

theorem Memory.readChk_eq (m : Memory) (a : Nat) :
    m.readChk a = some (m.read a) := by
  simp [Memory.readChk, Memory.read, Nat.mod_lt]

theorem Memory.writeChk_eq (m : Memory) (a v : Nat) :
    m.writeChk a v = some (m.write a v) := by
  simp [Memory.writeChk, Nat.mod_lt]

/-! Helper lemmas about the state components `write_memory` touches. -/

theorem write_memory_memory (s : Sma16) (a v : Nat) :
    (write_memory s a v).memory = s.memory.write (data a) v := by
  unfold write_memory
  split
  · rfl
  · split <;> rfl

theorem write_memory_program_counter (s : Sma16) (a v : Nat) :
    (write_memory s a v).program_counter = s.program_counter := by
  unfold write_memory
  split
  · rfl
  · split <;> rfl

theorem write_memory_instruction_register (s : Sma16) (a v : Nat) :
    (write_memory s a v).instruction_register = s.instruction_register := by
  unfold write_memory
  split
  · rfl
  · split <;> rfl

theorem write_memory_accumulator (s : Sma16) (a v : Nat) :
    (write_memory s a v).accumulator = s.accumulator := by
  unfold write_memory
  split
  · rfl
  · split <;> rfl

theorem data_idem (a : Nat) : data (data a) = data a := by
  simp [data, Nat.mod_mod_of_dvd]

theorem data_lt (a : Nat) : data a < 4096 := by
  simp [data]
  omega

/-! ## Claim C1 -/

/-- Claim C1, counterexample: the claim says reading or writing address
`4096 + k` behaves identically to address `k`, with identical output side
effects.  At `k = 0x00A` (the ASCII port) and value `0x41`, poking the
port address emits a byte while poking the aliased address `0x100A`
stores into the same word but emits nothing: the side effects differ. -/
theorem claim_C1_counterexample :
    (write_memory with_blank_memory 0x00A 0x41).output = [0x41]
  ∧ (write_memory with_blank_memory (4096 + 0x00A) 0x41).output = []
  ∧ (write_memory with_blank_memory (4096 + 0x00A) 0x41).output
      ≠ (write_memory with_blank_memory 0x00A 0x41).output := by
  refine ⟨by decide, by decide, by decide⟩

/-- Claim C1, amended: reading address `4096 + k` is identical to reading
`k`, and writing `4096 + k` stores to the same memory word as writing
`k`; but output emission is triggered by the raw (unmasked) address, so
the two writes are fully identical (including side effects) only when
`k` is not one of the two output ports. -/
theorem claim_C1_amended (s : Sma16) (k v : Nat) :
    read_memory s (4096 + k) = read_memory s k
  ∧ (write_memory s (4096 + k) v).memory = (write_memory s k v).memory
  ∧ (k ≠ ASCII_OUT → k ≠ SMALL_OUT →
      write_memory s (4096 + k) v = write_memory s k v) := by
  have hd : data (4096 + k) = data k := by
    simp [data, Nat.add_mod_left]
  have e1 : ¬(4096 + k = ASCII_OUT) := by simp [ASCII_OUT]; omega
  have e2 : ¬(4096 + k = SMALL_OUT) := by simp [SMALL_OUT]; omega
  refine ⟨?_, ?_, ?_⟩
  · simp [read_memory, hd]
  · rw [write_memory_memory, write_memory_memory, hd]
  · intro h10 h11
    unfold write_memory
    rw [if_neg e1, if_neg e2, if_neg h10, if_neg h11, hd]

/-- Claim C1, witness for the amended theorem at `k = 7`, `v = 5`. -/
theorem claim_C1_witness :
    write_memory with_blank_memory (4096 + 7) 5 = write_memory with_blank_memory 7 5 :=
  (claim_C1_amended with_blank_memory 7 5).2.2 (by decide) (by decide)

/-! ## Claim C2 -/

/-- Claim C2, counterexample: executing opcode nibble `0x1` does trigger
the fault protocol (return register `pc + 1`, `pc` redirected to 1), but
the interrupt-reason register receives `0x0FF0`, not `0x0FF0 ||| 0x1 =
0x0FF1` as claimed: the code ors in `inst` of the already-isolated
nibble, which is 0. -/
theorem claim_C2_counterexample :
    (step (load_memory with_blank_memory 0 [0x1000])).program_counter = 1
  ∧ read_memory (step (load_memory with_blank_memory 0 [0x1000]))
      INTERRUPT_RETURN_REGISTER = 1
  ∧ read_memory (step (load_memory with_blank_memory 0 [0x1000]))
      INTERRUPT_REASON_REGISTER ≠ 0x0FF0 ||| 0x1 := by
  refine ⟨by decide, by decide, by decide⟩

/-- Claim C2, amended: executing an instruction whose opcode nibble is
`0x1` sets the interrupt-return register to `pc + 1`, sets the
interrupt-reason register to `0x0FF0` (the low nibble of the reason is
`inst` of the already-isolated opcode nibble, which is 0), and redirects
the program counter to the fault vector 1 instead of advancing. -/
theorem claim_C2_amended (s : Sma16)
    (h : inst (read_memory s s.program_counter) = 0x1) :
    read_memory (step s) INTERRUPT_RETURN_REGISTER = (s.program_counter + 1) % 65536
  ∧ read_memory (step s) INTERRUPT_REASON_REGISTER = 0x0FF0
  ∧ (step s).program_counter = FAULT_VECTOR := by
  rw [step.eq_def]
  simp only [h, show Instruction.ofNat 0x1 = .Unknown 0x1 from rfl]
  refine ⟨?_, ?_, ?_⟩ <;>
    simp [fault, read_memory, Memory.read, Memory.write, data, inst,
      INTERRUPT_RETURN_REGISTER, INTERRUPT_REASON_REGISTER, FAULT_VECTOR]

/-- Claim C2, witness for the amended theorem: the fetched word `0x1000`
at `pc = 0` has opcode nibble `0x1`. -/
theorem claim_C2_witness :
    read_memory (step (load_memory with_blank_memory 0 [0x1000]))
      INTERRUPT_RETURN_REGISTER
      = ((load_memory with_blank_memory 0 [0x1000]).program_counter + 1) % 65536
  ∧ read_memory (step (load_memory with_blank_memory 0 [0x1000]))
      INTERRUPT_REASON_REGISTER = 0x0FF0
  ∧ (step (load_memory with_blank_memory 0 [0x1000])).program_counter = FAULT_VECTOR :=
  claim_C2_amended (load_memory with_blank_memory 0 [0x1000]) (by decide)

/-! ## Claim C3 -/

/-- Claim C3, counterexample: the claim says the program counter stays
below 4096 in every reachable state, wraps from 4095 to 0, and that
`fault` saves at most 4096.  From reset, `c3_state` reaches `pc = 4096`
after 3 steps (the increment at `pc = 4095` yields 4096, not 0), and the
fault taken on the next step saves `4097` in the interrupt-return
register. -/
theorem claim_C3_counterexample :
    (stepN c3_state 3).program_counter = 4096
  ∧ read_memory (stepN c3_state 4) INTERRUPT_RETURN_REGISTER = 4097 := by
  refine ⟨by decide, by decide⟩

/-- After any step the program counter is below 2^16: every path either
wraps the increment modulo 65536, jumps to a 12-bit data value, or sets
the fault vector. -/
theorem step_program_counter_lt (s : Sma16) : (step s).program_counter < 65536 := by
  rw [step.eq_def]
  cases hI : Instruction.ofNat (inst (read_memory s s.program_counter)) <;>
    simp only [hI] <;>
    (try split) <;>
    simp [inc_pc, data, fault, FAULT_VECTOR, write_memory_data,
      write_memory_program_counter] <;>
    omega

/-- Every arm of `step` leaves the instruction register as fetched. -/
theorem step_instruction_register_eq (s : Sma16) :
    (step s).instruction_register = read_memory s s.program_counter := by
  rw [step.eq_def]
  cases hI : Instruction.ofNat (inst (read_memory s s.program_counter)) <;>
    simp only [hI] <;>
    (try split) <;>
    simp [inc_pc, fault, write_memory_data, write_memory_instruction_register]

/-- Claim C3, amended: the program counter is a 16-bit register, not a
12-bit one: after every step it is below 65536 (the auto-increment wraps
modulo 65536, so 4095 increments to 4096), and the 12-bit masking
happens only when the counter is used as the fetch address — the fetched
instruction register always equals the memory word at the masked
counter.  Reachable counters may reach 4096 and beyond, and the value
`pc + 1` saved by `fault` may exceed 4096 (see the counterexample). -/
theorem claim_C3_amended (s : Sma16) :
    (step s).program_counter < 65536
  ∧ (step s).instruction_register = read_memory s s.program_counter :=
  ⟨step_program_counter_lt s, step_instruction_register_eq s⟩

/-! ## Claim C5 -/

/-- Claim C5: loading `[0xB005, 0xE000, 0x0000]` (Add 5, Push, Halt) at
address 0 of a blank-memory core and calling `run()` terminates, with
accumulator 5, stack exactly `[5]`, and the halt flag set. -/
theorem claim_C5 :
    ∃ t, RunsTo (load_memory with_blank_memory 0 [0xB005, 0xE000, 0x0000]) t
  ∧ t.accumulator = 5 ∧ t.stack = [5] ∧ t.flag_halt = true := by
  refine ⟨stepN (run_start (load_memory with_blank_memory 0 [0xB005, 0xE000, 0x0000])) 3,
    ⟨3, by decide, rfl, by decide⟩, by decide, by decide, by decide⟩

/-! ## Claim C6 -/

/-- Claim C6: for every state, executing an `Add` instruction (opcode
nibble `0xB`) leaves the accumulator equal to `(a + b) mod 65536` for
accumulator data field `a` and instruction data field `b`, sets the zero
flag exactly when the low 12 bits of the resulting accumulator are zero,
and never faults: memory is untouched and the program counter advances
normally. -/
theorem claim_C6 (s : Sma16)
    (h : inst (read_memory s s.program_counter) = 0xB) :
    (step s).accumulator
      = (data s.accumulator + data (read_memory s s.program_counter)) % 65536
  ∧ ((step s).flag_zero = true ↔ data (step s).accumulator = 0)
  ∧ (step s).memory = s.memory
  ∧ (step s).program_counter = (s.program_counter + 1) % 65536 := by
  rw [step.eq_def]
  simp only [h, show Instruction.ofNat 0xB = .Add from rfl]
  exact ⟨by simp [inc_pc], by simp [inc_pc, beq_iff_eq],
    by simp [inc_pc], by simp [inc_pc]⟩

/-- Claim C6, witness at a concrete `Add` instruction. -/
theorem claim_C6_witness :
    (step c6_state).accumulator
      = (data c6_state.accumulator + data (read_memory c6_state c6_state.program_counter)) % 65536
  ∧ ((step c6_state).flag_zero = true ↔ data (step c6_state).accumulator = 0)
  ∧ (step c6_state).memory = c6_state.memory
  ∧ (step c6_state).program_counter = (c6_state.program_counter + 1) % 65536 :=
  claim_C6 c6_state (by decide)

/-! ## Claim C7 -/

theorem read_memory_inc_pc (s : Sma16) (a : Nat) :
    read_memory (inc_pc s) a = read_memory s a := rfl

/-- Reading back the address just written returns the written value. -/
theorem read_memory_write_memory_self (s : Sma16) (a v : Nat) :
    read_memory (write_memory s a v) a = v := by
  simp [read_memory, write_memory_memory, Memory.read, Memory.write]

/-- Claim C7: executing `Store` (opcode `0x5`) keeps the top 4 bits of
the target word and replaces its low 12 bits with the accumulator's data
field, while `StoreFull` (opcode `0xA`) overwrites the whole target word
with the full accumulator.  The target word hypothesis `< 65536` records
that memory holds 16-bit words. -/
theorem claim_C7 (s : Sma16) :
    (inst (read_memory s s.program_counter) = 0x5 →
      read_memory s (data (read_memory s s.program_counter)) < 65536 →
      read_memory (step s) (data (read_memory s s.program_counter)) / 4096
          = read_memory s (data (read_memory s s.program_counter)) / 4096
      ∧ read_memory (step s) (data (read_memory s s.program_counter)) % 4096
          = data s.accumulator)
  ∧ (inst (read_memory s s.program_counter) = 0xA →
      read_memory (step s) (data (read_memory s s.program_counter))
        = s.accumulator) := by
  constructor
  · intro h hw
    rw [step.eq_def]
    simp only [h, show Instruction.ofNat 0x5 = .Store from rfl]
    unfold write_memory_data
    rw [read_memory_inc_pc, read_memory_write_memory_self]
    simp only [data_idem]
    simp only [read_memory, Memory.read, data] at hw ⊢
    constructor <;> omega
  · intro h
    rw [step.eq_def]
    simp only [h, show Instruction.ofNat 0xA = .SFull from rfl]
    rw [read_memory_inc_pc, read_memory_write_memory_self]

/-- Claim C7, witness at concrete `Store` and `StoreFull` instructions. -/
theorem claim_C7_witness :
    (read_memory (step c7_store_state)
        (data (read_memory c7_store_state c7_store_state.program_counter)) / 4096
      = read_memory c7_store_state
        (data (read_memory c7_store_state c7_store_state.program_counter)) / 4096
    ∧ read_memory (step c7_store_state)
        (data (read_memory c7_store_state c7_store_state.program_counter)) % 4096
      = data c7_store_state.accumulator)
  ∧ read_memory (step c7_sfull_state)
      (data (read_memory c7_sfull_state c7_sfull_state.program_counter))
    = c7_sfull_state.accumulator :=
  ⟨(claim_C7 c7_store_state).1 (by decide) (by decide),
    (claim_C7 c7_sfull_state).2 (by decide)⟩

/-! ## Claim C8 -/

/-- Claim C8: a write to the packed-character port appends, in order, the
character produced from the value's low 6 bits and then the one from
bits 6-11, each mapped by `convert` (0-25 to letters `A`-`Z`, 26-51 to
`a`-`z`, 52-61 to digits, 62 to space, 63 to nothing); in particular a
value with low 6 bits 0 and bits 6-11 equal to 62 emits exactly the two
bytes `A` then space. -/
theorem claim_C8 :
    (∀ s v, (write_memory s SMALL_OUT v).output
      = s.output ++ (small_to_chars (data v)).filterMap id)
  ∧ (∀ v, small_to_chars v = [convert (v % 64), convert (v / 64 % 64)])
  ∧ (∀ c : Fin 26, convert c.val = some (65 + c.val))
  ∧ (∀ c : Fin 26, convert (26 + c.val) = some (97 + c.val))
  ∧ (∀ c : Fin 10, convert (52 + c.val) = some (48 + c.val))
  ∧ convert 62 = some 32
  ∧ convert 63 = none
  ∧ (write_memory with_blank_memory SMALL_OUT (62 * 64)).output = [65, 32] :=
  ⟨fun s v => by simp [write_memory, ASCII_OUT, SMALL_OUT],
    fun v => rfl, by decide, by decide, by decide, by decide, by decide, by decide⟩

/-! ## Claim C9 -/

/-- Claim C9: the stack is LIFO and underflow is not an error.  Executing
`Push` appends the accumulator at the stack's end (the top) and leaves the
accumulator alone; executing `Pop` loads the end of the stack (or 0 when
the stack is empty) and removes it; hence pushing `v1` then `v2` and
popping twice yields `v2` first and `v1` second, as the end-to-end run of
the `c9_state` program with values 7 and 9 also shows concretely. -/
theorem claim_C9 (v1 v2 : Nat) :
    (∀ s : Sma16, inst (read_memory s s.program_counter) = 0xE →
      (step s).stack = s.stack ++ [s.accumulator]
      ∧ (step s).accumulator = s.accumulator)
  ∧ (∀ s : Sma16, inst (read_memory s s.program_counter) = 0xD →
      (step s).accumulator = (s.stack.getLast?).getD 0
      ∧ (step s).stack = s.stack.dropLast)
  ∧ (∀ σ : List Nat,
      (((σ ++ [v1]) ++ [v2]).getLast?).getD 0 = v2
      ∧ ((σ ++ [v1]) ++ [v2]).dropLast = σ ++ [v1]
      ∧ ((σ ++ [v1]).getLast?).getD 0 = v1
      ∧ (σ ++ [v1]).dropLast = σ)
  ∧ (∀ s : Sma16, inst (read_memory s s.program_counter) = 0xD → s.stack = [] →
      (step s).accumulator = 0 ∧ (step s).stack = [])
  ∧ (stepN (c9_state 7 9) 4).stack = [7, 9]
  ∧ (stepN (c9_state 7 9) 5).accumulator = 9
  ∧ (stepN (c9_state 7 9) 5).stack = [7]
  ∧ (stepN (c9_state 7 9) 6).accumulator = 7
  ∧ (stepN (c9_state 7 9) 6).stack = [] := by
  refine ⟨?_, ?_, ?_, ?_, by decide, by decide, by decide, by decide, by decide⟩
  · intro s ha
    rw [step.eq_def]
    simp only [ha, show Instruction.ofNat 0xE = .Push from rfl]
    simp [inc_pc]
  · intro s ha
    rw [step.eq_def]
    simp only [ha, show Instruction.ofNat 0xD = .Pop from rfl]
    simp [inc_pc]
  · intro σ
    simp
  · intro s ha hb
    rw [step.eq_def]
    simp only [ha, show Instruction.ofNat 0xD = .Pop from rfl]
    simp [hb, inc_pc]

/-- Claim C9, witness for the empty-stack `Pop` conjunct: a fresh core
whose first instruction is `Pop`. -/
theorem claim_C9_witness :
    (step (load_memory with_blank_memory 0 [0xD000])).accumulator = 0
  ∧ (step (load_memory with_blank_memory 0 [0xD000])).stack = [] :=
  (claim_C9 0 0).2.2.2.1 (load_memory with_blank_memory 0 [0xD000])
    (by decide) (by decide)

/-! ## Claim C10 -/

/-- Claim C10: `load_memory` only stores the words into (address-masked)
memory and emits nothing — its output, stack, program counter and
accumulator are untouched for every start address and word list, even
when the written range covers the output ports — whereas `write_memory`
(poke) at the ports does emit. -/
theorem claim_C10 :
    (∀ s start ws, (load_memory s start ws).output = s.output
      ∧ (load_memory s start ws).stack = s.stack
      ∧ (load_memory s start ws).program_counter = s.program_counter
      ∧ (load_memory s start ws).accumulator = s.accumulator
      ∧ (load_memory s start ws).memory = load_words s.memory start 0 ws)
  ∧ (load_memory with_blank_memory ASCII_OUT [0x41, 0x0FC0]).output = []
  ∧ read_memory (load_memory with_blank_memory ASCII_OUT [0x41, 0x0FC0]) ASCII_OUT = 0x41
  ∧ read_memory (load_memory with_blank_memory ASCII_OUT [0x41, 0x0FC0]) SMALL_OUT = 0x0FC0
  ∧ (write_memory with_blank_memory ASCII_OUT 0x41).output = [0x41]
  ∧ (write_memory with_blank_memory SMALL_OUT 0x0FC0).output ≠ [] :=
  ⟨fun s start ws => ⟨rfl, rfl, rfl, rfl, rfl⟩,
    by decide, by decide, by decide, by decide, by decide⟩

/-! ## Claim C4 -/

theorem read_memory_chk_eq (s : Sma16) (a : Nat) :
    read_memory_chk s a = some (read_memory s a) := by
  simp [read_memory_chk, read_memory, Memory.readChk_eq]

theorem write_memory_chk_eq (s : Sma16) (a v : Nat) :
    write_memory_chk s a v = some (write_memory s a v) := by
  rw [write_memory_chk, Memory.writeChk_eq]
  rfl

theorem write_memory_data_chk_eq (s : Sma16) (a v : Nat) :
    write_memory_data_chk s a v = some (write_memory_data s a v) := by
  rw [write_memory_data_chk, read_memory_chk_eq]
  simp [write_memory_chk_eq, write_memory_data]

theorem fault_chk_eq (s : Sma16) (r : Nat) :
    fault_chk s r = some (fault s r) := by
  rw [fault_chk, Memory.writeChk_eq]
  simp [Memory.writeChk_eq, fault]

/-- Claim C4: `step` is total on the host: for every machine state the
bounds-checked step succeeds and computes `step` (the address masks keep
every array access in range, and with the unchecked `u16` semantics the
shift and increment arms are total); concretely, a shift whose encoded
amount is 16 completes (the amount is taken mod 16, here shifting by 0),
and the increment at `pc = 65535` wraps to 0 without aborting. -/
theorem claim_C4 :
    (∀ s : Sma16, step_chk s = some (step s))
  ∧ (step c4_shift_state).accumulator = 0x234
  ∧ (step c4_pc_state).program_counter = 0
  ∧ (step c4_pc_state).flag_halt = true := by
  refine ⟨?_, by decide, by decide, by decide⟩
  intro s
  rw [step_chk.eq_def, step.eq_def, read_memory_chk_eq]
  cases hI : Instruction.ofNat (inst (read_memory s s.program_counter)) <;>
    simp [hI, read_memory_chk_eq, write_memory_chk_eq, write_memory_data_chk_eq,
      fault_chk_eq]

end Sma16VM
